import Mathlib

/-!
Verification of the `rfb-rs` ETL pipeline (Brazilian Federal Revenue CNPJ data)
against its natural-language specification.

The Rust sources are shallowly embedded: strings become `List Char`, byte
streams become `List Nat`, the regex `(\D)(\d{3})(\d{5})(\d{3})$` of
`src/transform/company.rs` is encoded by its match semantics, and the
downloader loops of `src/download/downloader.rs` become fuel-indexed
structural recursions (the fuel strictly dominates the loop's iteration
count, so the embedded function is total and executable).  External
collaborators (the HTTP client, the `zip` crate) are abstracted as explicit
parameters; where the spec is the only description of such a collaborator the
definition says so in its doc comment.
-/

/-! ## src/transform/company.rs — privacy masking -/

/-- The three-asterisk block inserted by the replacement template `$1***$3***`. -/
def star3 : List Char := ['*', '*', '*']

/-- `CPF_REGEX = (\D)(\d{3})(\d{5})(\d{3})$` (company.rs line 7): the haystack
matches iff it has length ≥ 12, its last 11 characters are digits, and the
character just before them is a non-digit.  (`\d` is modelled as an ASCII
digit; every input considered here is ASCII.) -/
def cpfMatch (s : List Char) : Bool :=
  decide (12 ≤ s.length) && (s.drop (s.length - 11)).all Char.isDigit &&
    !(s.getD (s.length - 12) '0').isDigit

/-- `CPF_REGEX.replace(name, "$1***$3***")` (company.rs line 85): on a match,
the prefix together with the captured non-digit (`$1`) is kept, the first
three digits are replaced by `***`, the middle five digits (`$3`) are kept,
and the last three digits are replaced by `***`.  Without a match the string
is returned unchanged. -/
def cpfReplace (s : List Char) : List Char :=
  if cpfMatch s then
    s.take (s.length - 11) ++ star3 ++ (s.drop (s.length - 8)).take 5 ++ star3
  else s

/-- Rust `char::is_whitespace`: the Unicode White_Space property — the
ASCII whitespace U+0009–U+000D (tab, LF, VT, FF, CR) and U+0020, plus
U+0085, U+00A0, U+1680, U+2000–U+200A, U+2028, U+2029, U+202F, U+205F and
U+3000. -/
def isRustWhitespace (c : Char) : Bool :=
  (0x09 ≤ c.toNat && c.toNat ≤ 0x0D) || c.toNat == 0x20 ||
    c.toNat == 0x85 || c.toNat == 0xA0 || c.toNat == 0x1680 ||
    (0x2000 ≤ c.toNat && c.toNat ≤ 0x200A) || c.toNat == 0x2028 ||
    c.toNat == 0x2029 || c.toNat == 0x202F || c.toNat == 0x205F ||
    c.toNat == 0x3000

/-- Rust `str::trim`, left half: drop leading whitespace. -/
def trimLeft (s : List Char) : List Char := s.dropWhile isRustWhitespace

/-- Rust `str::trim`, right half: drop trailing whitespace. -/
def trimRight (s : List Char) : List Char :=
  (s.reverse.dropWhile isRustWhitespace).reverse

/-- Rust `str::trim`: drop leading and trailing whitespace. -/
def trim (s : List Char) : List Char := trimRight (trimLeft s)

/-- `Company::clean_name` (company.rs lines 83–86):
`CPF_REGEX.replace(name, "$1***$3***").trim().to_string()`. -/
def clean_name (s : List Char) : List Char := trim (cpfReplace s)

example : star3 = ['*', '*', '*'] := by decide
example : cpfMatch "JOAO SILVA 12345678901".data = true := by decide
example : clean_name "JOAO SILVA 12345678901".data = "JOAO SILVA ***45678***".data := by decide
example : clean_name "A 12345678901 ".data = "A 12345678901".data := by decide
example : clean_name "A 12345678901".data = "A ***45678***".data := by decide
example : isRustWhitespace (Char.ofNat 0x0B) = true := by decide
example : isRustWhitespace (Char.ofNat 0x0C) = true := by decide
example :
    clean_name ("A 12345678901".data ++ [Char.ofNat 0x0B]) =
      "A 12345678901".data := by decide
example :
    clean_name (clean_name ("A 12345678901".data ++ [Char.ofNat 0x0B])) =
      "A ***45678***".data := by decide

/-! ## src/download/federal_revenue.rs — source catalog -/

/-- `FederalRevenue::BASE_URL` (federal_revenue.rs lines 6–7). -/
def BASE_URL : List Char :=
  "https://arquivos.receitafederal.gov.br/dados/cnpj/dados_abertos_cnpj/".data

/-- `FederalRevenue::get_base_url_with_date` (federal_revenue.rs lines 17–19).
The year-month directory, read from the wall clock in `get_year_month`, is
taken as the parameter `ym`. -/
def get_base_url_with_date (ym : List Char) : List Char :=
  BASE_URL ++ ym ++ ['/']

/-- `FederalRevenue::file_urls` (federal_revenue.rs lines 22–51): ten
`Estabelecimentos{i}.zip`, ten `Empresas{i}.zip`, ten `Socios{i}.zip`, then
the seven singleton archives, all under the dated base URL. -/
def file_urls (ym : List Char) : List (List Char) :=
  let base := get_base_url_with_date ym
  ((List.range 10).map fun i =>
      base ++ "Estabelecimentos".data ++ (Nat.repr i).data ++ ".zip".data) ++
  ((List.range 10).map fun i =>
      base ++ "Empresas".data ++ (Nat.repr i).data ++ ".zip".data) ++
  ((List.range 10).map fun i =>
      base ++ "Socios".data ++ (Nat.repr i).data ++ ".zip".data) ++
  [base ++ "Cnaes.zip".data, base ++ "Motivos.zip".data,
   base ++ "Municipios.zip".data, base ++ "Naturezas.zip".data,
   base ++ "Paises.zip".data, base ++ "Qualificacoes.zip".data,
   base ++ "Simples.zip".data]

/-- Rust `str::split(sep)`: the list of (possibly empty) segments between
occurrences of `sep`; always non-empty. -/
def splitOnChar (sep : Char) : List Char → List (List Char)
  | [] => [[]]
  | c :: cs =>
    match splitOnChar sep cs with
    | [] => [[c]]
    | h :: t => if c = sep then [] :: h :: t else (c :: h) :: t

/-- `FederalRevenue::filename_from_url` (federal_revenue.rs lines 54–57):
`url.split('/').next_back()`, i.e. the last segment of the split. -/
def filename_from_url (u : List Char) : Option (List Char) :=
  (splitOnChar '/' u).getLast?

/-- The 37 canonical artifact filenames, in catalog order. -/
def canonical_filenames : List (List Char) :=
  ["Estabelecimentos0.zip".data, "Estabelecimentos1.zip".data,
   "Estabelecimentos2.zip".data, "Estabelecimentos3.zip".data,
   "Estabelecimentos4.zip".data, "Estabelecimentos5.zip".data,
   "Estabelecimentos6.zip".data, "Estabelecimentos7.zip".data,
   "Estabelecimentos8.zip".data, "Estabelecimentos9.zip".data,
   "Empresas0.zip".data, "Empresas1.zip".data, "Empresas2.zip".data,
   "Empresas3.zip".data, "Empresas4.zip".data, "Empresas5.zip".data,
   "Empresas6.zip".data, "Empresas7.zip".data, "Empresas8.zip".data,
   "Empresas9.zip".data,
   "Socios0.zip".data, "Socios1.zip".data, "Socios2.zip".data,
   "Socios3.zip".data, "Socios4.zip".data, "Socios5.zip".data,
   "Socios6.zip".data, "Socios7.zip".data, "Socios8.zip".data,
   "Socios9.zip".data,
   "Cnaes.zip".data, "Motivos.zip".data, "Municipios.zip".data,
   "Naturezas.zip".data, "Paises.zip".data, "Qualificacoes.zip".data,
   "Simples.zip".data]

example : (file_urls "2025-11".data).length = 37 := by decide
example : filename_from_url "https://x.org/a/b.zip".data = some "b.zip".data := by decide
example : filename_from_url "".data = some [] := by decide
example : filename_from_url "nodashes".data = some "nodashes".data := by decide

/-! ## src/download/mod.rs — error and configuration types -/

/-- `DownloadError` (mod.rs lines 11–33).  Payloads carried by external
library errors (`reqwest::Error`, `std::io::Error`, `zip::result::ZipError`)
are elided; the enum has exactly these seven variants and in particular no
short-read variant. -/
inductive DownloadError where
  | httpError
  | ioError
  | zipError
  | fileNotFound (file : List Char)
  | maxRetriesExceeded (retries : Nat)
  | invalidUrl (url : List Char)
  | invalidConfig (msg : List Char)
deriving DecidableEq

/-- `DownloadConfig` (mod.rs lines 43–52). -/
structure DownloadConfig where
  data_dir : List Char
  timeout_secs : Nat
  max_retries : Nat
  max_parallel : Nat
  chunk_size : Int
  skip_existing : Bool
  restart : Bool

/-- `DownloadConfig::validate` (mod.rs lines 56–64). -/
def DownloadConfig.validate (c : DownloadConfig) : Except DownloadError Unit :=
  if c.max_parallel = 0 then
    .error (.invalidConfig "max_parallel must be at least 1".data)
  else if c.max_retries = 0 then
    .error (.invalidConfig "max_retries must be at least 1".data)
  else .ok ()

/-! ## src/download/downloader.rs — chunk retry loop -/

/-- `MAX_BACKOFF_EXPONENT` (downloader.rs line 12). -/
def MAX_BACKOFF_EXPONENT : Nat := 5

/-- Outcome of the per-chunk retry loop: either the data arrived on attempt
`attempts` after sleeping `sleepTotal` seconds in total, or the loop gave up
with `DownloadError::MaxRetriesExceeded(retries)` after `sleepTotal` seconds
of backoff. -/
inductive ChunkResult where
  | ok (attempts : Nat) (sleepTotal : Nat)
  | maxRetriesExceeded (retries : Nat) (sleepTotal : Nat)
deriving DecidableEq

/-- The retry loop of `download_chunked` (downloader.rs lines 169–182),
abstracted over which attempts fail (`failsAt i = true` means the `i`-th call
to `download_chunk` returns `Err`).  On the `i`-th failure the code sets
`retries = i`; if `retries >= max_retries` it returns
`MaxRetriesExceeded(retries)`, otherwise it sleeps
`2^min(retries, MAX_BACKOFF_EXPONENT)` seconds and retries.  The `fuel`
argument makes the recursion structural; `max_retries + 1` strictly bounds
the number of attempts, so the fuel never runs out when so initialised. -/
def chunkRetryGo (failsAt : Nat → Bool) (max_retries : Nat) :
    Nat → Nat → Nat → Option ChunkResult
  | 0, _, _ => none
  | fuel + 1, retries, sleepAcc =>
    if failsAt (retries + 1) then
      if max_retries ≤ retries + 1 then
        some (.maxRetriesExceeded (retries + 1) sleepAcc)
      else
        chunkRetryGo failsAt max_retries fuel (retries + 1)
          (sleepAcc + 2 ^ min (retries + 1) MAX_BACKOFF_EXPONENT)
    else some (.ok (retries + 1) sleepAcc)

/-- The retry loop of `download_chunked` for one chunk, started with
`retries = 0` and no sleep yet. -/
def download_chunk_retry (failsAt : Nat → Bool) (max_retries : Nat) :
    Option ChunkResult :=
  chunkRetryGo failsAt max_retries (max_retries + 1) 0 0

/-- A failure schedule in which exactly the first `k` attempts fail
transiently. -/
def failsUpTo (k : Nat) : Nat → Bool := fun i => decide (i ≤ k)

/-- `sleepSeg r d` = the total backoff slept for failures `r+1, …, r+d`,
each failure `i` contributing `2^min(i, MAX_BACKOFF_EXPONENT)` seconds —
the sleep schedule named by the spec. -/
def sleepSeg (r : Nat) : Nat → Nat
  | 0 => 0
  | d + 1 => 2 ^ min (r + 1) MAX_BACKOFF_EXPONENT + sleepSeg (r + 1) d

example : download_chunk_retry (failsUpTo 2) 3 = some (.ok 3 6) := by decide
example : download_chunk_retry (failsUpTo 3) 3 = some (.maxRetriesExceeded 3 6) := by decide
example : download_chunk_retry (failsUpTo 0) 3 = some (.ok 1 0) := by decide
example : sleepSeg 0 2 = 2 + 4 := by decide

/-! ## src/download/downloader.rs — chunked download -/

/-- The chunked-download loop of `download_chunked` (downloader.rs lines
154–191), abstracted over the origin's range responses: `fetch s e` is the
body returned for the request `Range: bytes=s-e`.  `File::create(filepath)`
truncates, so the loop starts from an empty file and `downloaded = 0`; each
iteration requests the window `bytes=downloaded-(downloaded+chunk-1)`,
appends the returned bytes and advances by their length.  The returned pair
is the final file contents and the list of issued ranges.  `fuel` bounds the
iteration count (each honest response is non-empty, so `total_size + 1`
suffices); an exhausted fuel yields `none`. -/
def download_chunked_go (fetch : Nat → Nat → List Nat)
    (total_size chunk_size : Nat) :
    Nat → List Nat → Nat → Option (List Nat × List (Nat × Nat))
  | 0, _, _ => none
  | fuel + 1, file, downloaded =>
    if downloaded < total_size then
      let c := min chunk_size (total_size - downloaded)
      let range_end := downloaded + c - 1
      let data := fetch downloaded range_end
      match download_chunked_go fetch total_size chunk_size fuel
          (file ++ data) (downloaded + data.length) with
      | none => none
      | some (f, rs) => some (f, (downloaded, range_end) :: rs)
    else some (file, [])

/-- `download_chunked` (downloader.rs lines 154–191) with every chunk request
succeeding at first attempt. -/
def download_chunked (fetch : Nat → Nat → List Nat)
    (total_size chunk_size : Nat) : Option (List Nat × List (Nat × Nat)) :=
  download_chunked_go fetch total_size chunk_size (total_size + 1) [] 0

/-- `download_chunked` as invoked on a path whose current on-disk content is
`existing` (the partial file of an interrupted run).  Line 162,
`File::create(filepath)`, truncates the file, so `existing` is discarded
before the loop begins. -/
def download_chunked_resume (existing : List Nat)
    (fetch : Nat → Nat → List Nat) (total_size chunk_size : Nat) :
    Option (List Nat × List (Nat × Nat)) :=
  download_chunked fetch total_size chunk_size

/-- An origin holding `origin` that answers `Range: bytes=s-e` with exactly
the requested slice. -/
def sliceFetch (origin : List Nat) : Nat → Nat → List Nat :=
  fun s e => (origin.drop s).take (e + 1 - s)

/-- A misbehaving origin that answers every range request with six bytes. -/
def sixByteFetch : Nat → Nat → List Nat := fun _ _ => [7, 7, 7, 7, 7, 7]

example :
    download_chunked (sliceFetch [0, 1, 2, 3, 4, 5, 6, 7, 8, 9]) 10 5 =
      some ([0, 1, 2, 3, 4, 5, 6, 7, 8, 9], [(0, 4), (5, 9)]) := by decide
example :
    download_chunked sixByteFetch 10 5 =
      some ([7, 7, 7, 7, 7, 7, 7, 7, 7, 7, 7, 7], [(0, 4), (6, 9)]) := by decide

/-! ## src/transform/transformer.rs — dataset processing order -/

/-- The four fact datasets. -/
inductive Dataset where
  | estabelecimentos
  | empresas
  | socios
  | simples
deriving DecidableEq, Repr

/-- `Transformer::process_estabelecimentos` (transformer.rs lines 67–79):
one processing event per partition `0..10`, in order. -/
def process_estabelecimentos_events : List (Dataset × Nat) :=
  (List.range 10).map fun i => (.estabelecimentos, i)

/-- `Transformer::process_empresas` (transformer.rs lines 104–116). -/
def process_empresas_events : List (Dataset × Nat) :=
  (List.range 10).map fun i => (.empresas, i)

/-- `Transformer::process_socios` (transformer.rs lines 132–144). -/
def process_socios_events : List (Dataset × Nat) :=
  (List.range 10).map fun i => (.socios, i)

/-- `Transformer::process_simples` (transformer.rs lines 160–180): a single
unpartitioned file. -/
def process_simples_events : List (Dataset × Nat) :=
  [(.simples, 0)]

/-- `Transformer::transform` (transformer.rs lines 28–48): after extraction it
runs `process_estabelecimentos(); process_empresas(); process_socios();
process_simples()` sequentially, so the run's processing events are the four
blocks concatenated in that order. -/
def transform_events : List (Dataset × Nat) :=
  process_estabelecimentos_events ++ process_empresas_events ++
    process_socios_events ++ process_simples_events

/-- The dataset order claimed by the spec: companies-base (Empresas) first,
then establishments, then partners, then simples. -/
def specOrder : Dataset → Nat
  | .empresas => 0
  | .estabelecimentos => 1
  | .socios => 2
  | .simples => 3

/-- The dataset order actually implemented by `Transformer::transform`. -/
def codeOrder : Dataset → Nat
  | .estabelecimentos => 0
  | .empresas => 1
  | .socios => 2
  | .simples => 3

/-- `orderedBy f evs` holds when no event of a dataset ranked later by `f`
occurs before an event of a dataset ranked earlier: consecutive events have
non-decreasing rank. -/
def orderedBy (f : Dataset → Nat) : List (Dataset × Nat) → Bool
  | [] => true
  | [_] => true
  | a :: b :: t => decide (f a.1 ≤ f b.1) && orderedBy f (b :: t)

example : orderedBy codeOrder transform_events = true := by decide
example : orderedBy specOrder transform_events = false := by decide

/-! ## src/download/check.rs — ZIP integrity -/

/-- Result of the `zip` crate opening an archive: `corrupt` when
`ZipArchive::new` fails, otherwise the per-entry outcomes of
`archive.by_index(i)` (`true` = entry readable). -/
inductive ZipParse where
  | corrupt
  | archive (entries : List Bool)

/-- `check_zip_integrity` (check.rs lines 5–18): `ZipArchive::new(file)?`
followed by `archive.by_index(i)?` for every entry; any library error
propagates as `DownloadError::ZipError`, otherwise the function returns
`Ok(true)`. -/
def check_zip_integrity (parse : ZipParse) : Except DownloadError Bool :=
  match parse with
  | .corrupt => .error .zipError
  | .archive entries => if entries.all id then .ok true else .error .zipError

/-- The end-of-central-directory signature `PK\x05\x06` every structurally
valid ZIP archive must contain. -/
def EOCD_SIG : List Nat := [0x50, 0x4B, 0x05, 0x06]

/-- Does `pat` occur as a contiguous run inside `bytes`? -/
def containsSeq (pat : List Nat) : List Nat → Bool
  | [] => pat.isEmpty
  | b :: bs => pat.isPrefixOf (b :: bs) || containsSeq pat bs

/-- Modelled from the spec: the `zip` crate (an external collaborator, not in
src/) opens an archive by locating its end-of-central-directory record; a
byte stream without the `EOCD_SIG` signature fails to open, i.e. parses as
`corrupt`.  For streams that do carry the signature the entry table is left
abstract via `entriesOf`. -/
def zipOpen (entriesOf : List Nat → List Bool) (bytes : List Nat) : ZipParse :=
  if containsSeq EOCD_SIG bytes then .archive (entriesOf bytes) else .corrupt

/-- The bytes of the 22-character file used by the spec's scenario S3 and the
repository's own test `test_check_invalid_zip`. -/
def notAZipBytes : List Nat := "This is not a zip file".data.map Char.toNat

example : containsSeq EOCD_SIG notAZipBytes = false := by decide
example : notAZipBytes.length = 22 := by decide

/-! ## src/main.rs — exit codes -/

/-- The `Download` branch of `main` (main.rs lines 114–135): when
`parallel == 0` it prints an error and calls `std::process::exit(1)`;
otherwise it runs the downloader, and `main`'s `anyhow::Result` makes the
process exit `1` on `Err` and `0` on `Ok`. -/
def main_download_exit_code (parallel : Nat) (download_ok : Bool) : Nat :=
  if parallel = 0 then 1
  else if download_ok then 0
  else 1

example : main_download_exit_code 0 true = 1 := by decide

/-- The sequence of byte ranges `download_chunked` issues when every response
returns exactly the requested window: starting at `d`, each window covers
`min chunk_size (total - d)` bytes. -/
def chunkRanges (total_size chunk_size : Nat) : Nat → Nat → List (Nat × Nat)
  | 0, _ => []
  | fuel + 1, d =>
    if d < total_size then
      (d, d + min chunk_size (total_size - d) - 1) ::
        chunkRanges total_size chunk_size fuel (d + min chunk_size (total_size - d))
    else []

/-! ## Helper lemmas -/

lemma splitOnChar_ne_nil (sep : Char) : ∀ l : List Char, splitOnChar sep l ≠ [] := by
  intro l
  induction l with
  | nil => simp [splitOnChar]
  | cons c cs ih =>
    simp only [splitOnChar]
    cases h : splitOnChar sep cs with
    | nil => simp
    | cons h' t => by_cases hc : c = sep <;> simp [hc]

lemma chunkRetryGo_ok (k mr : Nat) (hk : k < mr) :
    ∀ fuel r acc, r ≤ k → k - r < fuel →
      chunkRetryGo (failsUpTo k) mr fuel r acc =
        some (.ok (k + 1) (acc + sleepSeg r (k - r))) := by
  intro fuel
  induction fuel with
  | zero => intro r acc _ h; omega
  | succ fuel ih =>
    intro r acc hr hfuel
    by_cases hrk : r = k
    · subst hrk
      have h1 : failsUpTo r (r + 1) = false := by simp [failsUpTo]
      simp [chunkRetryGo, h1, sleepSeg]
    · have hrk' : r < k := lt_of_le_of_ne hr hrk
      have h1 : failsUpTo k (r + 1) = true := by simp [failsUpTo]; omega
      have h2 : ¬ (mr ≤ r + 1) := by omega
      rw [show k - r = (k - (r + 1)) + 1 by omega]
      simp only [chunkRetryGo, h1, if_true, if_neg h2, sleepSeg]
      rw [ih (r + 1) _ (by omega) (by omega)]
      congr 2
      rw [Nat.add_assoc]

lemma chunkRetryGo_err (k mr : Nat) (hk : mr ≤ k) :
    ∀ fuel r acc, r < mr → mr - r ≤ fuel →
      chunkRetryGo (failsUpTo k) mr fuel r acc =
        some (.maxRetriesExceeded mr (acc + sleepSeg r (mr - r - 1))) := by
  intro fuel
  induction fuel with
  | zero => intro r acc h1 h2; omega
  | succ fuel ih =>
    intro r acc hr hfuel
    have h1 : failsUpTo k (r + 1) = true := by simp [failsUpTo]; omega
    by_cases h2 : mr ≤ r + 1
    · have hmr : mr = r + 1 := by omega
      simp [chunkRetryGo, h1, h2, hmr, sleepSeg]
    · simp only [chunkRetryGo, h1, if_true, if_neg h2]
      rw [show mr - r - 1 = (mr - (r + 1) - 1) + 1 by omega]
      simp only [sleepSeg]
      rw [ih (r + 1) _ (by omega) (by omega)]
      congr 2
      rw [Nat.add_assoc]

/-! ## Claim C7 — retry backoff -/

/-- C7: when the first `k` attempts of a chunk download fail transiently, the
downloader sleeps `2^min(i, 5)` seconds after the `i`-th failure (total
`sleepSeg 0 k`); if the failures stay below `max_retries` the chunk succeeds
on attempt `k + 1`, and otherwise the loop stops at `max_retries` attempts
with the permanent `MaxRetriesExceeded` error. -/
theorem chunk_retry_backoff_spec (k mr : Nat) :
    (k < mr →
      download_chunk_retry (failsUpTo k) mr =
        some (.ok (k + 1) (sleepSeg 0 k))) ∧
    (mr ≤ k → 0 < mr →
      download_chunk_retry (failsUpTo k) mr =
        some (.maxRetriesExceeded mr (sleepSeg 0 (mr - 1)))) := by
  constructor
  · intro h
    have := chunkRetryGo_ok k mr h (mr + 1) 0 0 (Nat.zero_le _) (by omega)
    simpa [download_chunk_retry] using this
  · intro h hmr
    have := chunkRetryGo_err k mr h (mr + 1) 0 0 hmr (by omega)
    simpa [download_chunk_retry] using this

/-- C7 witness: two transient failures followed by success under
`max_retries = 3` complete on exactly the third attempt with total sleep
`2 + 4 = 6` seconds. -/
theorem chunk_retry_backoff_spec_witness :
    download_chunk_retry (failsUpTo 2) 3 = some (.ok 3 6) ∧ 6 ≥ 2 + 4 :=
  ⟨((chunk_retry_backoff_spec 2 3).1 (by decide)).trans (by decide), by decide⟩

/-! ## Claim C5 — transformer dataset order -/

/-- C5 counterexample: the run's very first processed partition is
`Estabelecimentos0`, before any `Empresas` row, so the spec's claimed order
companies-base → establishments → partners → simples is violated. -/
theorem transform_spec_order_false :
    orderedBy specOrder transform_events = false ∧
    transform_events.head? = some (Dataset.estabelecimentos, 0) := by decide

/-- C5 amended: `Transformer::transform` processes the datasets strictly in
the order establishments → companies-base → partners → simples; within each
dataset the partitions run in ascending order. -/
theorem transform_code_order :
    orderedBy codeOrder transform_events = true ∧
    transform_events =
      ((List.range 10).map fun i => (Dataset.estabelecimentos, i)) ++
      ((List.range 10).map fun i => (Dataset.empresas, i)) ++
      ((List.range 10).map fun i => (Dataset.socios, i)) ++
      [(Dataset.simples, 0)] := by decide

/-! ## Claim C9 — exit codes -/

/-- C9 counterexample: invoking the CLI with `parallel = 0` makes `main`
call `std::process::exit(1)` — exit code `1`, not the claimed `2`. -/
theorem main_parallel_zero_exits_one :
    main_download_exit_code 0 true = 1 ∧
    ¬ main_download_exit_code 0 true = 2 := by decide

/-- C9 amended: the invalid configuration `parallel = 0` exits with code `1`,
the same code as any other fatal error; the process exits `0` exactly on
success, and no path of the download branch produces exit code `2`. -/
theorem main_exit_codes (p : Nat) (ok : Bool) :
    main_download_exit_code 0 ok = 1 ∧
    main_download_exit_code p ok ≠ 2 ∧
    (main_download_exit_code p ok = 0 ↔ p ≠ 0 ∧ ok = true) := by
  cases ok <;> rcases eq_or_ne p 0 with h | h <;>
    simp [main_download_exit_code, h]

/-- C9 amended, witness at `parallel = 0` with a succeeding downloader. -/
theorem main_exit_codes_witness :
    main_download_exit_code 0 true = 1 ∧
    main_download_exit_code 0 true ≠ 2 ∧
    (main_download_exit_code 0 true = 0 ↔ (0 : Nat) ≠ 0 ∧ true = true) :=
  main_exit_codes 0 true

/-! ## Claim C10 — filename extraction is total -/

/-- C10: `FederalRevenue::filename_from_url` returns `Some` for every input
string — `split('/')` always yields at least one segment, so `next_back()`
never sees an empty iterator and the `InvalidUrl` branch of
`Downloader::download` is unreachable. -/
theorem filename_from_url_total (u : List Char) :
    (filename_from_url u).isSome = true := by
  have := splitOnChar_ne_nil '/' u
  simpa [filename_from_url] using List.getLast?_isSome.mpr this

/-! ## Claims C1, C4 — chunked download behaviour -/

lemma download_chunked_go_slice (origin : List Nat) (cs : Nat) (hcs : 0 < cs) :
    ∀ fuel d file, origin.length - d < fuel →
      download_chunked_go (sliceFetch origin) origin.length cs fuel file d =
        some (file ++ origin.drop d, chunkRanges origin.length cs fuel d) := by
  intro fuel
  induction fuel with
  | zero => intro d file h; omega
  | succ fuel ih =>
    intro d file h
    by_cases hd : d < origin.length
    · have hc1 : 1 ≤ min cs (origin.length - d) := by omega
      have hdata : sliceFetch origin d (d + min cs (origin.length - d) - 1) =
          (origin.drop d).take (min cs (origin.length - d)) := by
        simp only [sliceFetch]
        congr 1
        omega
      have hlen :
          ((origin.drop d).take (min cs (origin.length - d))).length =
            min cs (origin.length - d) := by
        simp only [List.length_take, List.length_drop]
        omega
      simp only [download_chunked_go, chunkRanges, if_pos hd, hdata, hlen]
      rw [ih (d + min cs (origin.length - d)) _ (by omega)]
      rw [List.append_assoc, List.drop_take_append_drop]
    · simp only [download_chunked_go, chunkRanges, if_neg hd]
      rw [List.drop_eq_nil_of_le (by omega), List.append_nil]

/-- C1 amended: the downloader never resumes.  `download_chunked` opens the
target with `File::create`, which truncates the partial file, and downloads
from byte 0: whatever partial content `existing` is on disk, the first range
request is `bytes=0-(min chunk_size total − 1)` — not `bytes=<len>-…` — the
prior bytes are discarded, and the final file is the whole origin, identical
to an uninterrupted run against the same stable origin. -/
theorem download_resume_restarts_from_zero (existing origin : List Nat)
    (cs : Nat) (hcs : 0 < cs) (h0 : 0 < origin.length) :
    ∃ rs, download_chunked_resume existing (sliceFetch origin)
        origin.length cs =
      some (origin, (0, min cs origin.length - 1) :: rs) := by
  refine ⟨chunkRanges origin.length cs origin.length (min cs origin.length), ?_⟩
  have h := download_chunked_go_slice origin cs hcs (origin.length + 1) 0 []
    (by omega)
  rw [download_chunked_resume, download_chunked, h]
  simp only [List.drop_zero, List.nil_append, chunkRanges, if_pos h0,
    Nat.zero_add, Nat.sub_zero]

/-- C1 witness: a five-byte partial file `[9,9,9,9,9]` on disk, a ten-byte
origin and 4-byte chunks. -/
theorem download_resume_restarts_from_zero_witness :
    ∃ rs, download_chunked_resume [9, 9, 9, 9, 9]
        (sliceFetch [0, 1, 2, 3, 4, 5, 6, 7, 8, 9]) 10 4 =
      some ([0, 1, 2, 3, 4, 5, 6, 7, 8, 9], (0, 3) :: rs) :=
  download_resume_restarts_from_zero [9, 9, 9, 9, 9]
    [0, 1, 2, 3, 4, 5, 6, 7, 8, 9] 4 (by decide) (by decide)

/-- C1 counterexample: with the five-byte partial file `[9,9,9,9,9]` on disk
and a ten-byte origin, the first issued range is `bytes=0-4`, not the
`bytes=5-9` the claim requires, and the first five bytes of the final file
are the origin's — the bytes that were on disk are not left unchanged. -/
theorem download_resume_counterexample :
    download_chunked_resume [9, 9, 9, 9, 9]
        (sliceFetch [0, 1, 2, 3, 4, 5, 6, 7, 8, 9]) 10 5 =
      some ([0, 1, 2, 3, 4, 5, 6, 7, 8, 9], [(0, 4), (5, 9)]) ∧
    ¬ ([(0, 4), (5, 9)] : List (Nat × Nat)).head? = some (5, 9) ∧
    ¬ ([0, 1, 2, 3, 4, 5, 6, 7, 8, 9] : List Nat).take 5 = [9, 9, 9, 9, 9] := by
  decide

/-- C4 amended: `download_chunked` performs no final length verification (and
`DownloadError` has no short-read variant); what does hold is that when the
origin honours every range request exactly, the completed file is the whole
origin, so its length equals the advertised content-length. -/
theorem download_chunked_exact_length (origin : List Nat) (cs : Nat)
    (hcs : 0 < cs) :
    ∃ rs f, download_chunked (sliceFetch origin) origin.length cs =
        some (f, rs) ∧ f.length = origin.length := by
  refine ⟨chunkRanges origin.length cs (origin.length + 1) 0, origin, ?_, rfl⟩
  have h := download_chunked_go_slice origin cs hcs (origin.length + 1) 0 []
    (by omega)
  rw [download_chunked, h]
  simp only [List.drop_zero, List.nil_append]

/-- C4 witness: a three-byte origin fetched in two-byte chunks. -/
theorem download_chunked_exact_length_witness :
    ∃ rs f, download_chunked (sliceFetch [1, 2, 3]) 3 2 = some (f, rs) ∧
      f.length = 3 :=
  download_chunked_exact_length [1, 2, 3] 2 (by decide)

/-- C4 counterexample: against an origin that answers every range request
with six bytes, the transfer advertised as 10 bytes runs to completion having
written 12 bytes, and the downloader still returns success — no `short-read`
error is raised (none exists in `DownloadError`). -/
theorem download_no_short_read_check :
    download_chunked sixByteFetch 10 5 =
      some ([7, 7, 7, 7, 7, 7, 7, 7, 7, 7, 7, 7], [(0, 4), (6, 9)]) ∧
    ¬ ([7, 7, 7, 7, 7, 7, 7, 7, 7, 7, 7, 7] : List Nat).length = 10 := by
  decide

/-! ## Claims C2, C3 — privacy-mask lemmas -/

lemma forall_mem_some {a : Char} {P : Char → Prop} (h : P a) :
    ∀ c ∈ (some a : Option Char), P c := by
  intro c hc
  simp only [Option.mem_def, Option.some.injEq] at hc
  subst hc
  exact h

lemma mem_of_getLast?_eq : ∀ {l : List Char} {a : Char},
    l.getLast? = some a → a ∈ l := by
  intro l
  induction l with
  | nil => intro a h; simp at h
  | cons b t ih =>
    intro a h
    cases t with
    | nil =>
      simp only [List.getLast?_singleton, Option.some.injEq] at h
      simp [h]
    | cons c t' =>
      rw [List.getLast?_cons_cons] at h
      exact List.mem_cons_of_mem _ (ih h)

lemma dropWhile_dropWhile (p : Char → Bool) (l : List Char) :
    (l.dropWhile p).dropWhile p = l.dropWhile p := by
  induction l with
  | nil => rfl
  | cons a t ih => by_cases h : p a <;> simp [List.dropWhile_cons, h, ih]

lemma head?_dropWhile_false (p : Char → Bool) (l : List Char) :
    ∀ c ∈ (l.dropWhile p).head?, p c = false := by
  induction l with
  | nil => simp [List.dropWhile]
  | cons a t ih =>
    by_cases h : p a
    · simpa [List.dropWhile_cons, h] using ih
    · simp [List.dropWhile_cons, h]

lemma getLast?_dropWhile (p : Char → Bool) (l : List Char)
    (h : l.dropWhile p ≠ []) :
    (l.dropWhile p).getLast? = l.getLast? := by
  conv_rhs => rw [← List.takeWhile_append_dropWhile (p := p) (l := l)]
  rw [List.getLast?_append_of_ne_nil _ h]

lemma dropWhile_eq_self_of_head (p : Char → Bool) (l : List Char)
    (h : ∀ c ∈ l.head?, p c = false) : l.dropWhile p = l := by
  cases l with
  | nil => rfl
  | cons a t =>
    have := h a (by simp)
    simp [List.dropWhile_cons, this]

lemma trimLeft_eq_self (s : List Char)
    (h : ∀ c ∈ s.head?, isRustWhitespace c = false) : trimLeft s = s :=
  dropWhile_eq_self_of_head _ _ h

lemma trimRight_eq_self (s : List Char)
    (h : ∀ c ∈ s.getLast?, isRustWhitespace c = false) : trimRight s = s := by
  unfold trimRight
  rw [dropWhile_eq_self_of_head _ _ (by simpa [List.head?_reverse] using h),
    List.reverse_reverse]

lemma getLast?_drop_eq (s : List Char) (k : Nat) (h : s.drop k ≠ []) :
    (s.drop k).getLast? = s.getLast? := by
  conv_rhs => rw [← List.take_append_drop k s]
  rw [List.getLast?_append_of_ne_nil _ h]

lemma cpfMatch_false_of_last_nondigit (s : List Char) (c : Char)
    (h : s.getLast? = some c) (hc : c.isDigit = false) :
    cpfMatch s = false := by
  by_contra hm
  have hm' : cpfMatch s = true := by
    cases hx : cpfMatch s with
    | false => exact absurd hx hm
    | true => rfl
  simp only [cpfMatch, Bool.and_eq_true, decide_eq_true_eq] at hm'
  obtain ⟨⟨hlen, hall⟩, -⟩ := hm'
  have hne : s.drop (s.length - 11) ≠ [] := by
    intro h0
    have := List.drop_eq_nil_iff.mp h0
    omega
  have hlast : (s.drop (s.length - 11)).getLast? = some c := by
    rw [getLast?_drop_eq _ _ hne, h]
  have hmem : c ∈ s.drop (s.length - 11) := mem_of_getLast?_eq hlast
  have := List.all_eq_true.mp hall c hmem
  rw [hc] at this
  exact Bool.false_ne_true this

lemma cpfMatch_append (t u : List Char) (h : 12 ≤ u.length) :
    cpfMatch (t ++ u) = cpfMatch u := by
  have e1 : (t ++ u).length - 11 = t.length + (u.length - 11) := by
    simp only [List.length_append]
    omega
  have e2 : (t ++ u).length - 12 = t.length + (u.length - 12) := by
    simp only [List.length_append]
    omega
  have e3 : decide (12 ≤ (t ++ u).length) = decide (12 ≤ u.length) := by
    simp only [List.length_append]
    rw [decide_eq_true (by omega : 12 ≤ t.length + u.length),
      decide_eq_true h]
  simp only [cpfMatch, e1, e2, e3, List.drop_append,
    List.getD_append_right t u _ _ (Nat.le_add_right _ _),
    Nat.add_sub_cancel_left]

lemma cpfReplace_getLast?_star (s : List Char) (hm : cpfMatch s = true) :
    (cpfReplace s).getLast? = some '*' := by
  unfold cpfReplace
  rw [if_pos hm]
  rw [show star3 = '*' :: ['*', '*'] from rfl]
  rw [List.getLast?_append_cons]
  rfl

lemma clean_name_eq_of_getLast_star (s : List Char)
    (hm : cpfMatch s = true) :
    clean_name s = trimLeft (cpfReplace s) ∧
      (trimLeft (cpfReplace s)).getLast? = some '*' := by
  have hrep := cpfReplace_getLast?_star s hm
  have hu_ne : trimLeft (cpfReplace s) ≠ [] := by
    intro h0
    have hall := List.dropWhile_eq_nil_iff.mp h0
    have hmem : '*' ∈ cpfReplace s := mem_of_getLast?_eq hrep
    exact absurd (hall _ hmem) (by decide)
  have hu_last : (trimLeft (cpfReplace s)).getLast? = some '*' := by
    rw [trimLeft, getLast?_dropWhile _ _ hu_ne]
    exact hrep
  refine ⟨?_, hu_last⟩
  unfold clean_name trim
  exact trimRight_eq_self _ (by rw [hu_last]; exact forall_mem_some (by decide))

lemma clean_name_fixed (u : List Char)
    (hum : cpfMatch u = false)
    (hhead : ∀ c ∈ u.head?, isRustWhitespace c = false)
    (hlast : ∀ c ∈ u.getLast?, isRustWhitespace c = false) :
    clean_name u = u := by
  unfold clean_name cpfReplace
  rw [if_neg (by simp [hum])]
  unfold trim
  rw [trimLeft_eq_self u hhead, trimRight_eq_self u hlast]

/-- C3 counterexample: masking is not idempotent.  For the input
`"A 12345678901 "` (trailing space) the `$`-anchored regex does not match, so
the first application only trims; the trim exposes the 11-digit tail, and the
second application masks it, changing the string again. -/
theorem clean_name_idempotent_counterexample :
    ¬ clean_name (clean_name "A 12345678901 ".data) =
        clean_name "A 12345678901 ".data ∧
    clean_name "A 12345678901 ".data = "A 12345678901".data ∧
    clean_name (clean_name "A 12345678901 ".data) = "A ***45678***".data := by
  decide

/-- C3 amended: `Company::clean_name` is idempotent on every input whose last
character is not whitespace (in particular on the empty string); only a
whitespace tail, which hides the `$`-anchored CPF pattern from the first pass
and is then removed by `trim`, can break idempotence. -/
theorem clean_name_idempotent (s : List Char)
    (h : ∀ c ∈ s.getLast?, isRustWhitespace c = false) :
    clean_name (clean_name s) = clean_name s := by
  by_cases hm : cpfMatch s = true
  · obtain ⟨hcs, hu_last⟩ := clean_name_eq_of_getLast_star s hm
    rw [hcs]
    exact clean_name_fixed _
      (cpfMatch_false_of_last_nondigit _ '*' hu_last (by decide))
      (head?_dropWhile_false _ _)
      (by rw [hu_last]; exact forall_mem_some (by decide))
  · have hm' : cpfMatch s = false := by
      cases hx : cpfMatch s with
      | false => rfl
      | true => exact absurd hx hm
    by_cases h0 : trimLeft s = []
    · have hcs : clean_name s = [] := by
        unfold clean_name cpfReplace
        rw [if_neg (by simp [hm'])]
        unfold trim
        rw [h0]
        rfl
      rw [hcs]
      decide
    · have hcs : clean_name s = trimLeft s := by
        unfold clean_name cpfReplace
        rw [if_neg (by simp [hm'])]
        unfold trim
        exact trimRight_eq_self _
          (by rw [trimLeft, getLast?_dropWhile _ _ h0]; exact h)
      have hsu : s.takeWhile isRustWhitespace ++ trimLeft s = s :=
        List.takeWhile_append_dropWhile _ _
      have hum : cpfMatch (trimLeft s) = false := by
        by_cases hlen : 12 ≤ (trimLeft s).length
        · rw [← hm', ← hsu, cpfMatch_append _ _ hlen, hsu]
        · unfold cpfMatch
          rw [decide_eq_false (by omega)]
          simp
      rw [hcs]
      exact clean_name_fixed _ hum (head?_dropWhile_false _ _)
        (by rw [trimLeft, getLast?_dropWhile _ _ h0]; exact h)

/-- C3 witness: idempotence at `"JOAO SILVA 12345678901"`. -/
theorem clean_name_idempotent_witness :
    clean_name (clean_name "JOAO SILVA 12345678901".data) =
      clean_name "JOAO SILVA 12345678901".data :=
  clean_name_idempotent "JOAO SILVA 12345678901".data (by decide)

/-- C2 counterexample: the spec's expected output is wrong.
`clean_name("JOAO SILVA 12345678901")` is `"JOAO SILVA ***45678***"` — the
replacement `$1***$3***` keeps the *middle five* digits and masks the first
three and last three — not the claimed `"JOAO SILVA ***678***901***"`. -/
theorem clean_name_spec_example_false :
    ¬ clean_name "JOAO SILVA 12345678901".data =
        "JOAO SILVA ***678***901***".data ∧
    clean_name "JOAO SILVA 12345678901".data =
      "JOAO SILVA ***45678***".data := by
  decide

/-- C2 amended: for any name ending in a non-digit `c` followed by 11 digits
`d`, `clean_name` rewrites the tail to `c ++ "***" ++ d[3..7] ++ "***"` (and
trims): the *middle five* digits are preserved while the first three and last
three are masked. -/
theorem clean_name_masks (pfx : List Char) (c : Char) (d : List Char)
    (hc : c.isDigit = false) (hlen : d.length = 11)
    (hd : d.all Char.isDigit = true) :
    clean_name (pfx ++ c :: d) =
      trim (pfx ++ c :: (star3 ++ ((d.drop 3).take 5 ++ star3))) := by
  have hn : (pfx ++ c :: d).length = pfx.length + 12 := by
    simp [hlen]
  have hmatch : cpfMatch (pfx ++ c :: d) = true := by
    simp only [cpfMatch, hn, Bool.and_eq_true, decide_eq_true_eq]
    refine ⟨⟨by omega, ?_⟩, ?_⟩
    · rw [show pfx.length + 12 - 11 = pfx.length + 1 by omega,
        List.drop_append 1]
      simpa using hd
    · rw [show pfx.length + 12 - 12 = pfx.length by omega,
        List.getD_append_right _ _ _ _ (le_refl _)]
      simp [hc]
  unfold clean_name cpfReplace
  rw [if_pos hmatch, hn]
  rw [show pfx.length + 12 - 11 = pfx.length + 1 by omega,
    show pfx.length + 12 - 8 = pfx.length + 4 by omega,
    List.take_append 1, List.drop_append 4]
  simp [List.append_assoc]

/-- C2 witness: instantiated at `"JOAO SILVA" ++ ' ' ++ "12345678901"`. -/
theorem clean_name_masks_witness :
    clean_name ("JOAO SILVA".data ++ ' ' :: "12345678901".data) =
      trim ("JOAO SILVA".data ++ ' ' ::
        (star3 ++ (("12345678901".data.drop 3).take 5 ++ star3))) :=
  clean_name_masks "JOAO SILVA".data ' ' "12345678901".data (by decide)
    (by decide) (by decide)

/-! ## Claim C8 — ZIP integrity check -/

/-- C8: `check_zip_integrity` fails on any byte stream that is not a
structurally valid ZIP archive — in particular, any stream without the
end-of-central-directory signature fails to open and the function returns the
`ZipError` (archive-corrupt) outcome — and it returns ok exactly when the
archive opens and every entry is readable. -/
theorem check_zip_integrity_spec (entriesOf : List Nat → List Bool)
    (bytes : List Nat) (hsig : containsSeq EOCD_SIG bytes = false) :
    check_zip_integrity (zipOpen entriesOf bytes) =
      .error DownloadError.zipError ∧
    ∀ p : ZipParse, (check_zip_integrity p).isOk = true ↔
      ∃ es, p = ZipParse.archive es ∧ es.all id = true := by
  constructor
  · simp [zipOpen, hsig, check_zip_integrity]
  · intro p
    cases p with
    | corrupt => simp [check_zip_integrity, Except.isOk, Except.toBool]
    | archive es =>
      simp only [check_zip_integrity]
      by_cases h : es.all id = true
      · rw [if_pos h]
        exact ⟨fun _ => ⟨es, rfl, h⟩, fun _ => rfl⟩
      · rw [if_neg h]
        constructor
        · intro hok
          exact absurd hok (by simp [Except.isOk, Except.toBool])
        · rintro ⟨es', he, hall⟩
          cases he
          exact absurd hall h

/-- C8 witness: the 22-byte file `"This is not a zip file"` of scenario S3
carries no end-of-central-directory signature, so the check reports the
archive-corrupt error. -/
theorem check_zip_integrity_spec_witness :
    check_zip_integrity (zipOpen (fun _ => []) notAZipBytes) =
      .error DownloadError.zipError :=
  (check_zip_integrity_spec (fun _ => []) notAZipBytes (by decide)).1

/-! ## Claim C6 — catalog shape -/

lemma isPrefixOf_self_append (l t : List Char) : l.isPrefixOf (l ++ t) = true :=
  List.isPrefixOf_iff_prefix.mpr (List.prefix_append l t)

lemma splitOnChar_no_sep (sep : Char) (f : List Char)
    (hf : f.contains sep = false) : splitOnChar sep f = [f] := by
  induction f with
  | nil => rfl
  | cons c cs ih =>
    simp only [List.contains_cons, Bool.or_eq_false_iff, beq_eq_false_iff_ne,
      ne_eq] at hf
    simp only [splitOnChar, ih hf.2]
    rw [if_neg fun h => hf.1 h.symm]

lemma two_le_splitOnChar_length (sep : Char) :
    ∀ w : List Char, sep ∈ w → 2 ≤ (splitOnChar sep w).length := by
  intro w
  induction w with
  | nil => simp
  | cons c cs ih =>
    intro hmem
    cases hr : splitOnChar sep cs with
    | nil => exact absurd hr (splitOnChar_ne_nil sep cs)
    | cons h t =>
      simp only [splitOnChar, hr]
      by_cases hc : c = sep
      · rw [if_pos hc]
        simp
      · rw [if_neg hc]
        have hcs : sep ∈ cs := by
          rcases List.mem_cons.mp hmem with h1 | h1
          · exact absurd h1.symm hc
          · exact h1
        have := ih hcs
        rw [hr] at this
        simpa using this

lemma getLast?_splitOnChar_append (sep : Char) (f : List Char)
    (hf : f.contains sep = false) :
    ∀ p : List Char, (splitOnChar sep (p ++ sep :: f)).getLast? = some f := by
  intro p
  induction p with
  | nil =>
    rw [List.nil_append]
    simp only [splitOnChar, splitOnChar_no_sep sep f hf]
    simp [List.getLast?_cons_cons]
  | cons a p ih =>
    rw [List.cons_append]
    cases hr : splitOnChar sep (p ++ sep :: f) with
    | nil => exact absurd hr (splitOnChar_ne_nil sep _)
    | cons h t =>
      simp only [splitOnChar, hr]
      rw [hr] at ih
      by_cases ha : a = sep
      · rw [if_pos ha, List.getLast?_cons_cons]
        exact ih
      · rw [if_neg ha]
        cases t with
        | nil =>
          have h2 := two_le_splitOnChar_length sep (p ++ sep :: f)
            (List.mem_append_right _ (List.mem_cons_self _ _))
          rw [hr] at h2
          simp at h2
        | cons h2 t2 =>
          rw [List.getLast?_cons_cons] at ih ⊢
          exact ih

lemma filename_url_shape (ym f : List Char) (hf : f.contains '/' = false) :
    filename_from_url (get_base_url_with_date ym ++ f) = some f := by
  have he : get_base_url_with_date ym ++ f = (BASE_URL ++ ym) ++ '/' :: f := by
    simp [get_base_url_with_date, List.append_assoc]
  rw [filename_from_url, he]
  exact getLast?_splitOnChar_append '/' f hf (BASE_URL ++ ym)

lemma file_urls_eq (ym : List Char) :
    file_urls ym =
      [get_base_url_with_date ym ++ "Estabelecimentos".data ++ "0".data ++ ".zip".data,
       get_base_url_with_date ym ++ "Estabelecimentos".data ++ "1".data ++ ".zip".data,
       get_base_url_with_date ym ++ "Estabelecimentos".data ++ "2".data ++ ".zip".data,
       get_base_url_with_date ym ++ "Estabelecimentos".data ++ "3".data ++ ".zip".data,
       get_base_url_with_date ym ++ "Estabelecimentos".data ++ "4".data ++ ".zip".data,
       get_base_url_with_date ym ++ "Estabelecimentos".data ++ "5".data ++ ".zip".data,
       get_base_url_with_date ym ++ "Estabelecimentos".data ++ "6".data ++ ".zip".data,
       get_base_url_with_date ym ++ "Estabelecimentos".data ++ "7".data ++ ".zip".data,
       get_base_url_with_date ym ++ "Estabelecimentos".data ++ "8".data ++ ".zip".data,
       get_base_url_with_date ym ++ "Estabelecimentos".data ++ "9".data ++ ".zip".data,
       get_base_url_with_date ym ++ "Empresas".data ++ "0".data ++ ".zip".data,
       get_base_url_with_date ym ++ "Empresas".data ++ "1".data ++ ".zip".data,
       get_base_url_with_date ym ++ "Empresas".data ++ "2".data ++ ".zip".data,
       get_base_url_with_date ym ++ "Empresas".data ++ "3".data ++ ".zip".data,
       get_base_url_with_date ym ++ "Empresas".data ++ "4".data ++ ".zip".data,
       get_base_url_with_date ym ++ "Empresas".data ++ "5".data ++ ".zip".data,
       get_base_url_with_date ym ++ "Empresas".data ++ "6".data ++ ".zip".data,
       get_base_url_with_date ym ++ "Empresas".data ++ "7".data ++ ".zip".data,
       get_base_url_with_date ym ++ "Empresas".data ++ "8".data ++ ".zip".data,
       get_base_url_with_date ym ++ "Empresas".data ++ "9".data ++ ".zip".data,
       get_base_url_with_date ym ++ "Socios".data ++ "0".data ++ ".zip".data,
       get_base_url_with_date ym ++ "Socios".data ++ "1".data ++ ".zip".data,
       get_base_url_with_date ym ++ "Socios".data ++ "2".data ++ ".zip".data,
       get_base_url_with_date ym ++ "Socios".data ++ "3".data ++ ".zip".data,
       get_base_url_with_date ym ++ "Socios".data ++ "4".data ++ ".zip".data,
       get_base_url_with_date ym ++ "Socios".data ++ "5".data ++ ".zip".data,
       get_base_url_with_date ym ++ "Socios".data ++ "6".data ++ ".zip".data,
       get_base_url_with_date ym ++ "Socios".data ++ "7".data ++ ".zip".data,
       get_base_url_with_date ym ++ "Socios".data ++ "8".data ++ ".zip".data,
       get_base_url_with_date ym ++ "Socios".data ++ "9".data ++ ".zip".data,
       get_base_url_with_date ym ++ "Cnaes.zip".data,
       get_base_url_with_date ym ++ "Motivos.zip".data,
       get_base_url_with_date ym ++ "Municipios.zip".data,
       get_base_url_with_date ym ++ "Naturezas.zip".data,
       get_base_url_with_date ym ++ "Paises.zip".data,
       get_base_url_with_date ym ++ "Qualificacoes.zip".data,
       get_base_url_with_date ym ++ "Simples.zip".data] := rfl

/-- C6: for every period `ym`, the catalog has exactly 37 entries; every URL
begins with the configured base `get_base_url_with_date ym`; the filename
extracted from each URL (its final path segment) is the corresponding
canonical name, in the fixed order establishments 0–9, companies-base 0–9,
partners 0–9, then the seven singletons; and the 37 canonical filenames are
pairwise distinct. -/
theorem file_urls_catalog (ym : List Char) :
    (file_urls ym).length = 37 ∧
    ((file_urls ym).all fun u =>
        (get_base_url_with_date ym).isPrefixOf u) = true ∧
    (file_urls ym).map filename_from_url = canonical_filenames.map some ∧
    canonical_filenames.Nodup := by
  refine ⟨rfl, ?_, ?_, by decide⟩
  · rw [file_urls_eq]
    simp only [List.all_cons, List.all_nil, List.append_assoc,
      isPrefixOf_self_append, Bool.and_self]
  · rw [file_urls_eq, canonical_filenames]
    simp only [List.map_cons, List.map_nil, List.append_assoc,
      List.cons.injEq, and_true]
    refine ⟨?_, ?_, ?_, ?_, ?_, ?_, ?_, ?_, ?_, ?_,
      ?_, ?_, ?_, ?_, ?_, ?_, ?_, ?_, ?_, ?_,
      ?_, ?_, ?_, ?_, ?_, ?_, ?_, ?_, ?_, ?_,
      ?_, ?_, ?_, ?_, ?_, ?_, ?_⟩ <;>
      exact filename_url_shape _ _ (by decide)
